import Mathlib

/-!
Verification of the SSP core (src/lib/ssp.ts): Mark Drela's position-based
mesh spacing method. The numerical code is embedded over the real numbers;
each TypeScript function below is translated line by line. JavaScript `number`
arithmetic is modelled by exact real arithmetic (so `x / 0 = 0` stands in for
the IEEE `Infinity`/`NaN` results, noted where it matters).
-/

namespace SSP

/-- A control knot: position `S` and spacing weight `F` (src/types.ts). -/
structure Knot where
  S : ℝ
  F : ℝ

/-- Return type of `computeSSP` (the local `ComputedValues` interface in ssp.ts). -/
structure ComputedValues where
  T : List ℝ
  scaledKnots : List Knot
  si : List ℝ

/-- Error cases of `computeSSP`: the three `throw new Error(...)` sites in ssp.ts
(lines 168-176). All three are input-validation (InvalidInput) failures; the code
contains no other throw. -/
inductive SSPError where
  | tooFewKnots
  | tooFewPoints
  | nonPositiveF
  deriving DecidableEq

noncomputable instance : DecidableRel (fun a b : Knot => a.S ≤ b.S) :=
  fun a b => Real.decidableLE a.S b.S

noncomputable instance : DecidableRel (fun a b : ℕ × Knot => a.2.S ≤ b.2.S) :=
  fun a b => Real.decidableLE a.2.S b.2.S

/-- One iteration of the loop body of `computeTj` (ssp.ts lines 36-58):
the parametric increment for the segment from `kj` to `kjp1`. -/
noncomputable def deltaT (kj kjp1 : Knot) : ℝ :=
  let dS := kjp1.S - kj.S
  let dF := kjp1.F - kj.F
  let eps := dF / kj.F
  if |eps| ≥ 0.001 then (dS / dF) * Real.log (kjp1.F / kj.F)
  else (dS / kj.F) * (1 + eps / 6) / (1 + 2 * eps / 3)

/-- Accumulator form of the `computeTj` loop: `t` is the `T` value of the first
knot of `ks`; the loop pushes one entry per remaining adjacent pair. -/
noncomputable def computeTjAux (t : ℝ) : List Knot → List ℝ
  | k1 :: k2 :: rest => t :: computeTjAux (t + deltaT k1 k2) (k2 :: rest)
  | _ => [t]

/-- Step 1 `computeTj` (ssp.ts lines 33-61): parametric knot positions, `T[0] = 0`. -/
noncomputable def computeTj (knots : List Knot) : List ℝ :=
  computeTjAux 0 knots

/-- Step 2 `rescale` (ssp.ts lines 71-87): `TN = T[T.length - 1]`, knots get
`F * TN`, parametric positions get `/ TN`. The code performs no check on `TN`. -/
noncomputable def rescale (knots : List Knot) (T : List ℝ) :
    List Knot × List ℝ :=
  let TN := T.getD (T.length - 1) 0
  (knots.map fun k => ⟨k.S, k.F * TN⟩, T.map fun t => t / TN)

/-- Loop of `findInterval` (ssp.ts lines 96-101): starting at index `j`, return
the first index whose interval satisfies `T[j] < t ≤ T[j+1]`, if any. -/
noncomputable def findFrom (t : ℝ) : List ℝ → ℕ → Option ℕ
  | a :: b :: rest, j => if a < t ∧ t ≤ b then some j else findFrom t (b :: rest) (j + 1)
  | _, _ => none

/-- `findInterval` (ssp.ts lines 93-104): `t ≤ 0` maps to 0; otherwise the first
matching interval, with fallback `T.length - 2`. -/
noncomputable def findInterval (T : List ℝ) (t : ℝ) : ℕ :=
  if t ≤ 0 then 0 else (findFrom t T 0).getD (T.length - 2)

/-- Body of the `computeSi` loop (ssp.ts lines 118-150) for one target `ti`. -/
noncomputable def siBody (knots : List Knot) (T : List ℝ) (ti : ℝ) : ℝ :=
  let j := findInterval T ti
  let kj := knots.getD j ⟨0, 0⟩
  let kjp1 := knots.getD (j + 1) ⟨0, 0⟩
  let Tj := T.getD j 0
  let Bj := (kjp1.F - kj.F) / (kjp1.S - kj.S)
  let eps := Bj * (ti - Tj)
  if |Bj| ≥ 0.001 then kj.S + kj.F * (Real.exp eps - 1) / Bj
  else kj.S + kj.F * (1 + eps / 2 + eps ^ 2 / 6 + eps ^ 3 / 24) * (ti - Tj)

/-- Step 3 `computeSi` (ssp.ts lines 115-156): `si = [0]`, then one entry per
`i = 1 .. n-1` with target `ti = i / (n-1)`, and finally `si[n-1] = 1`. -/
noncomputable def computeSi (knots : List Knot) (T : List ℝ) (n : ℕ) : List ℝ :=
  (0 :: (List.range' 1 (n - 1)).map fun i : ℕ =>
    siBody knots T ((i : ℝ) / ((n : ℝ) - 1))).set (n - 1) 1

/-- Main entry `computeSSP` (ssp.ts lines 166-192): three input-validation throws,
then the three steps. Thrown errors are modelled by `Except.error`. -/
noncomputable def computeSSP (knots : List Knot) (n : ℕ) :
    Except SSPError ComputedValues :=
  if knots.length < 2 then .error .tooFewKnots
  else if n < 2 then .error .tooFewPoints
  else if knots.any fun k => decide (k.F ≤ 0) then .error .nonPositiveF
  else
    let T := computeTj knots
    let p := rescale knots T
    .ok ⟨p.2, p.1, computeSi p.1 p.2 n⟩

/-- `createDefaultKnots` (ssp.ts lines 198-203). -/
def createDefaultKnots : List Knot :=
  [⟨0, 1⟩, ⟨1, 1⟩]

/-- The `F: Math.max(0.01, k.F)` map in `sanitizeKnots` (ssp.ts lines 222-225). -/
noncomputable def clampF (k : Knot) : Knot :=
  ⟨k.S, max 0.01 k.F⟩

/-- An assignment `l[i].S = v` on a list of knots: element `i` keeps its `F`. -/
noncomputable def setS (l : List Knot) (i : ℕ) (v : ℝ) : List Knot :=
  l.set i ⟨v, (l.getD i ⟨0, 0⟩).F⟩

/-- The `[...knots].sort((a, b) => a.S - b.S)` step (ssp.ts line 215): a stable
sort by `S`, modelled by insertion sort (stable, so ties keep input order,
matching the ECMAScript guarantee for `Array.prototype.sort`). -/
noncomputable def sortKnots (knots : List Knot) : List Knot :=
  List.insertionSort (fun a b => a.S ≤ b.S) knots

/-- `sanitizeKnots` (ssp.ts lines 209-226): default pair below 2 knots, else sort
by `S`, overwrite the first sorted `S` with 0 and the last with 1, then clamp `F`. -/
noncomputable def sanitizeKnots (knots : List Knot) : List Knot :=
  if knots.length < 2 then createDefaultKnots
  else
    let sorted := sortKnots knots
    (setS (setS sorted 0 0) (sorted.length - 1) 1).map clampF

/-- Contents of the caller's knot objects after `sanitizeKnots` returns. The code
copies the array (`[...knots]`) but not the knot objects inside it, so the
assignments `sorted[0].S = 0` and `sorted[sorted.length - 1].S = 1` write through
shared references into the caller's objects: the knots that sort first and last
(first occurrence on ties, by sort stability) have their `S` overwritten in place.
The final `.map` builds fresh objects and does not write. Each array slot is
modelled as its own object. -/
noncomputable def sanitizeKnotsPost (knots : List Knot) : List Knot :=
  if knots.length < 2 then knots
  else
    let tagged := List.insertionSort (fun a b : ℕ × Knot => a.2.S ≤ b.2.S) knots.enum
    let i0 := (tagged.getD 0 (0, ⟨0, 0⟩)).1
    let iN := (tagged.getD (tagged.length - 1) (0, ⟨0, 0⟩)).1
    setS (setS knots i0 0) iN 1

/-! ### Structure of `computeTj` -/

theorem computeTjAux_length (ks : List Knot) :
    ∀ t, (computeTjAux t ks).length = max 1 ks.length := by
  induction ks with
  | nil => intro t; simp [computeTjAux]
  | cons k1 tail ih =>
    cases tail with
    | nil => intro t; simp [computeTjAux]
    | cons k2 rest =>
      intro t
      simp only [computeTjAux, List.length_cons]
      rw [ih]
      simp only [List.length_cons]
      omega

theorem computeTjAux_getD_zero (ks : List Knot) (t : ℝ) :
    (computeTjAux t ks).getD 0 0 = t := by
  cases ks with
  | nil => simp [computeTjAux]
  | cons k1 tail => cases tail <;> simp [computeTjAux]

theorem computeTjAux_getD_succ (ks : List Knot) :
    ∀ t j, j + 1 < ks.length →
      (computeTjAux t ks).getD (j + 1) 0 =
        (computeTjAux t ks).getD j 0 +
          deltaT (ks.getD j ⟨0, 0⟩) (ks.getD (j + 1) ⟨0, 0⟩) := by
  induction ks with
  | nil => intro t j h; simp at h
  | cons k1 tail ih =>
    cases tail with
    | nil => intro t j h; simp at h
    | cons k2 rest =>
      intro t j h
      cases j with
      | zero =>
        simp only [computeTjAux, List.getD_cons_succ, List.getD_cons_zero]
        rw [computeTjAux_getD_zero]
      | succ j' =>
        have h' : j' + 1 < (k2 :: rest).length := by
          simpa [Nat.succ_lt_succ_iff] using h
        simp only [computeTjAux, List.getD_cons_succ]
        exact ih (t + deltaT k1 k2) j' h'

theorem computeTj_length (knots : List Knot) (h : 1 ≤ knots.length) :
    (computeTj knots).length = knots.length := by
  rw [computeTj, computeTjAux_length]; omega

/-! ### Structure of `computeSi` -/

theorem computeSi_length (knots : List Knot) (T : List ℝ) (n : ℕ) (hn : 1 ≤ n) :
    (computeSi knots T n).length = n := by
  simp only [computeSi]
  simp
  omega

theorem computeSi_getD_zero (knots : List Knot) (T : List ℝ) (n : ℕ) (hn : 2 ≤ n) :
    (computeSi knots T n).getD 0 0 = 0 := by
  have hne : n - 1 ≠ 0 := by omega
  simp only [computeSi, List.getD_eq_getElem?_getD, List.getElem?_set_ne hne]
  simp

theorem computeSi_getD_last (knots : List Knot) (T : List ℝ) (n : ℕ) (hn : 2 ≤ n) :
    (computeSi knots T n).getD (n - 1) 0 = 1 := by
  have hlt : n - 1 < (0 :: (List.range' 1 (n - 1)).map fun i : ℕ =>
      siBody knots T ((i : ℝ) / ((n : ℝ) - 1))).length := by
    simp
  simp only [computeSi, List.getD_eq_getElem?_getD, List.getElem?_set_self hlt]
  simp

theorem computeSi_getD_mid (knots : List Knot) (T : List ℝ) (n i : ℕ)
    (hi : 0 < i) (hin : i < n - 1) :
    (computeSi knots T n).getD i 0 = siBody knots T ((i : ℝ) / ((n : ℝ) - 1)) := by
  obtain ⟨i', rfl⟩ : ∃ i', i = i' + 1 := ⟨i - 1, by omega⟩
  have hne : n - 1 ≠ i' + 1 := by omega
  have hi' : i' < n - 1 := by omega
  simp only [computeSi, List.getD_eq_getElem?_getD, List.getElem?_set_ne hne,
    List.getElem?_cons_succ, List.getElem?_map, List.getElem?_range' _ _ hi',
    Option.map_some, Option.getD_some]
  norm_num [add_comm 1 i']

/-! ### Claims C2 and C1 -/

/-- Claim C2: `computeSSP(knots, n)` fails with an InvalidInput error if and only
if `knots` has fewer than 2 elements, or `n < 2`, or some knot has `F ≤ 0`; for
all other inputs it returns a result without raising. (All constructors of
`SSPError` correspond to the three InvalidInput throws of the code.) -/
theorem computeSSP_error_iff (knots : List Knot) (n : ℕ) :
    ((∃ e, computeSSP knots n = .error e) ↔
      (knots.length < 2 ∨ n < 2 ∨ ∃ k ∈ knots, k.F ≤ 0))
    ∧ (¬(knots.length < 2 ∨ n < 2 ∨ ∃ k ∈ knots, k.F ≤ 0) →
        ∃ cv, computeSSP knots n = .ok cv) := by
  by_cases h1 : knots.length < 2
  · constructor
    · simp only [computeSSP, if_pos h1]
      exact ⟨fun _ => Or.inl h1, fun _ => ⟨.tooFewKnots, rfl⟩⟩
    · intro h; exact absurd (Or.inl h1) h
  · by_cases h2 : n < 2
    · constructor
      · simp only [computeSSP, if_neg h1, if_pos h2]
        exact ⟨fun _ => Or.inr (Or.inl h2), fun _ => ⟨.tooFewPoints, rfl⟩⟩
      · intro h; exact absurd (Or.inr (Or.inl h2)) h
    · by_cases h3 : ∃ k ∈ knots, k.F ≤ 0
      · have hany : (knots.any fun k => decide (k.F ≤ 0)) = true := by
          rw [List.any_eq_true]
          obtain ⟨k, hk, hkF⟩ := h3
          exact ⟨k, hk, by simpa using hkF⟩
        constructor
        · simp only [computeSSP, if_neg h1, if_neg h2, hany, if_pos]
          exact ⟨fun _ => Or.inr (Or.inr h3), fun _ => ⟨.nonPositiveF, rfl⟩⟩
        · intro h; exact absurd (Or.inr (Or.inr h3)) h
      · have hany : (knots.any fun k => decide (k.F ≤ 0)) = false := by
          rw [List.any_eq_false]
          intro k hk
          simp only [decide_eq_true_eq]
          exact fun hkF => h3 ⟨k, hk, hkF⟩
        have hok : computeSSP knots n =
            .ok ⟨(rescale knots (computeTj knots)).2,
                 (rescale knots (computeTj knots)).1,
                 computeSi (rescale knots (computeTj knots)).1
                   (rescale knots (computeTj knots)).2 n⟩ := by
          simp only [computeSSP, if_neg h1, if_neg h2, hany, Bool.false_eq_true,
            if_neg, ite_false]
        constructor
        · rw [hok]
          constructor
          · rintro ⟨e, he⟩; exact absurd he (by simp)
          · rintro (h | h | h)
            · exact absurd h h1
            · exact absurd h h2
            · exact absurd h h3
        · exact fun _ => ⟨_, hok⟩

/-- Claim C2 witness: at the concrete inputs `[]` and `n = 5` the routine fails. -/
theorem computeSSP_error_iff_w :
    ∃ e, computeSSP [] 5 = .error e :=
  (computeSSP_error_iff [] 5).1.mpr (Or.inl (by simp))

/-- Claim C1 (amended): for every knot list with at least 2 knots, every `F`
positive and `n ≥ 2`, `computeSSP` succeeds and its `si` has exactly `n` entries
with `si[0] = 0` and `si[n-1] = 1`. (The monotonicity and `[0,1]`-membership
conjuncts of the original claim fail for such inputs; see the counterexample.) -/
theorem computeSSP_shape (knots : List Knot) (n : ℕ)
    (hk : 2 ≤ knots.length) (hF : ∀ k ∈ knots, 0 < k.F) (hn : 2 ≤ n) :
    ∃ cv, computeSSP knots n = .ok cv ∧
      cv.si.length = n ∧ cv.si.getD 0 0 = 0 ∧ cv.si.getD (n - 1) 0 = 1 := by
  have hcond : ¬(knots.length < 2 ∨ n < 2 ∨ ∃ k ∈ knots, k.F ≤ 0) := by
    push_neg
    refine ⟨by omega, by omega, fun k hk => by linarith [hF k hk]⟩
  obtain ⟨cv, hcv⟩ := (computeSSP_error_iff knots n).2 hcond
  have hsi : cv.si = computeSi (rescale knots (computeTj knots)).1
      (rescale knots (computeTj knots)).2 n := by
    have h1 : ¬ knots.length < 2 := by omega
    have h2 : ¬ n < 2 := by omega
    have hany : (knots.any fun k => decide (k.F ≤ 0)) = false := by
      rw [List.any_eq_false]
      intro k hk
      simp only [decide_eq_true_eq]
      exact fun hkF => hcond (Or.inr (Or.inr ⟨k, hk, hkF⟩))
    rw [computeSSP] at hcv
    simp only [if_neg h1, if_neg h2, hany, Bool.false_eq_true, ite_false] at hcv
    cases hcv
    rfl
  exact ⟨cv, hcv, by
    rw [hsi]; exact computeSi_length _ _ _ (by omega), by
    rw [hsi]; exact computeSi_getD_zero _ _ _ hn, by
    rw [hsi]; exact computeSi_getD_last _ _ _ hn⟩

/-- Claim C1 witness: the default two-knot configuration with `n = 3`. -/
theorem computeSSP_shape_w :
    ∃ cv, computeSSP [⟨0, 1⟩, ⟨1, 1⟩] 3 = .ok cv ∧
      cv.si.length = 3 ∧ cv.si.getD 0 0 = 0 ∧ cv.si.getD 2 0 = 1 :=
  computeSSP_shape [⟨0, 1⟩, ⟨1, 1⟩] 3 (by simp)
    (by intro k hk; simp only [List.mem_cons] at hk
        rcases hk with h | h | h <;> first | (subst h; norm_num) | simp at h)
    (by omega)

/-- Claim C1 counterexample: the knot list [(S,F) = (0,1), (2,1)] has 2 knots and
every `F` strictly positive, and `n = 5 ≥ 2`, yet the output sequence is
`[0, 1/2, 1, 3/2, 1]`: not monotonically non-decreasing (the entry `3/2` at
index 3 exceeds the entry `1` at index 4), and `3/2` lies outside `[0,1]`. -/
theorem computeSSP_shape_cx :
    (computeSSP [⟨0, 1⟩, ⟨2, 1⟩] 5).map ComputedValues.si = .ok [0, 1/2, 1, 3/2, 1]
    ∧ ¬ List.Sorted (· ≤ ·) [(0 : ℝ), 1/2, 1, 3/2, 1]
    ∧ (3/2 : ℝ) ∈ [(0 : ℝ), 1/2, 1, 3/2, 1] ∧ (3/2 : ℝ) ∉ Set.Icc (0 : ℝ) 1 := by
  refine ⟨?_, ?_, by norm_num, by norm_num [Set.mem_Icc]⟩
  · norm_num [computeSSP, computeTj, computeTjAux, deltaT, rescale, computeSi,
      siBody, findInterval, findFrom, List.range', Except.map]
  · norm_num [List.sorted_cons]

/-! ### Claim C3 -/

/-- Claim C3: for every knot list of length `N ≥ 2`, `computeTj` returns a list
`T` of length `N` with `T[0] = 0`, and for each adjacent pair `j` (with
`dS = S_{j+1} - S_j`, `dF = F_{j+1} - F_j`, `eps = dF / F_j`):
`T[j+1] = T[j] + (dS/dF) * ln(F_{j+1}/F_j)` when `|eps| ≥ 0.001`, and
`T[j+1] = T[j] + (dS/F_j) * (1 + eps/6) / (1 + 2*eps/3)` when `|eps| < 0.001`. -/
theorem computeTj_spec (knots : List Knot) (hN : 2 ≤ knots.length) :
    (computeTj knots).length = knots.length
    ∧ (computeTj knots).getD 0 0 = 0
    ∧ ∀ j, j + 1 < knots.length →
        (computeTj knots).getD (j + 1) 0 =
          (computeTj knots).getD j 0 +
            (let kj := knots.getD j ⟨0, 0⟩
             let kjp1 := knots.getD (j + 1) ⟨0, 0⟩
             let dS := kjp1.S - kj.S
             let dF := kjp1.F - kj.F
             let eps := dF / kj.F
             if |eps| ≥ 0.001 then (dS / dF) * Real.log (kjp1.F / kj.F)
             else (dS / kj.F) * (1 + eps / 6) / (1 + 2 * eps / 3)) := by
  refine ⟨computeTj_length knots (by omega), computeTjAux_getD_zero _ _, ?_⟩
  intro j hj
  simpa only [deltaT] using computeTjAux_getD_succ knots 0 j hj

/-- Claim C3 witness: two knots (0,1), (1,2); the segment has `eps = 1`, so the
logarithmic branch applies and `T[1] = T[0] + (1/1)·ln(2/1)`. -/
theorem computeTj_spec_w :
    (computeTj [⟨0, 1⟩, ⟨1, 2⟩]).length = 2
    ∧ (computeTj [⟨0, 1⟩, ⟨1, 2⟩]).getD 1 0 =
        (computeTj [⟨0, 1⟩, ⟨1, 2⟩]).getD 0 0 +
          (((1 : ℝ) - 0) / ((2 : ℝ) - 1)) * Real.log ((2 : ℝ) / 1) := by
  have h := computeTj_spec [⟨0, 1⟩, ⟨1, 2⟩] (by simp)
  refine ⟨h.1, ?_⟩
  have h2 := h.2.2 0 (by simp)
  rw [h2]
  norm_num [List.getD]

/-! ### `findInterval` characterization (claims C4 and C10) -/

theorem findFrom_eq_some (t : ℝ) :
    ∀ (l : List ℝ) (j0 k : ℕ), findFrom t l j0 = some k →
      ∃ m, k = j0 + m ∧ m + 1 < l.length ∧
        l.getD m 0 < t ∧ t ≤ l.getD (m + 1) 0 := by
  intro l
  induction l with
  | nil => intro j0 k h; simp [findFrom] at h
  | cons a tail ih =>
    cases tail with
    | nil => intro j0 k h; simp [findFrom] at h
    | cons b rest =>
      intro j0 k h
      rw [findFrom] at h
      by_cases hc : a < t ∧ t ≤ b
      · rw [if_pos hc] at h
        cases h
        exact ⟨0, by omega, by simp, by simpa using hc.1, by simpa using hc.2⟩
      · rw [if_neg hc] at h
        obtain ⟨m, rfl, hm, h1, h2⟩ := ih (j0 + 1) k h
        exact ⟨m + 1, by omega, by simpa using hm, by simpa using h1, by simpa using h2⟩

theorem findFrom_eq_none (t : ℝ) :
    ∀ (l : List ℝ) (j0 : ℕ), findFrom t l j0 = none →
      ∀ m, m + 1 < l.length → ¬(l.getD m 0 < t ∧ t ≤ l.getD (m + 1) 0) := by
  intro l
  induction l with
  | nil => intro j0 h m hm; simp at hm
  | cons a tail ih =>
    cases tail with
    | nil => intro j0 h m hm; simp at hm
    | cons b rest =>
      intro j0 h m hm
      rw [findFrom] at h
      by_cases hc : a < t ∧ t ≤ b
      · rw [if_pos hc] at h; cases h
      · rw [if_neg hc] at h
        cases m with
        | zero => simpa using hc
        | succ m' =>
          have hm' : m' + 1 < (b :: rest).length := by simpa using hm
          simpa using ih (j0 + 1) h m' hm'

theorem findInterval_le (T : List ℝ) (t : ℝ) (hT : 2 ≤ T.length) :
    findInterval T t ≤ T.length - 2 := by
  rw [findInterval]
  split
  · omega
  · cases hf : findFrom t T 0 with
    | none => simp
    | some k =>
      obtain ⟨m, rfl, hm, _, _⟩ := findFrom_eq_some t T 0 k hf
      simp only [Option.getD_some]
      omega

/-! ### Claim C4 -/

/-- Claim C4: in `computeSi`, for each `i` with `0 < i < n-1` and target
`ti = i/(n-1)`, the containing segment `j = findInterval T ti` satisfies
`T[j] < ti ≤ T[j+1]` whenever some interval satisfies that strict inequality
(`ti ≤ 0` maps to segment 0, and when no interval matches the index falls back
to the last segment `T.length - 2`), and the output value is
`s_i = S_j + F_j*(exp(eps)-1)/Bj` when `|Bj| ≥ 0.001`, with
`Bj = (F_{j+1}-F_j)/(S_{j+1}-S_j)` on the knots passed (the scaled knots in the
pipeline) and `eps = Bj*(ti - T_j)`, and
`s_i = S_j + F_j*(1 + eps/2 + eps²/6 + eps³/24)*(ti - T_j)` when `|Bj| < 0.001`. -/
theorem computeSi_formula (knots : List Knot) (T : List ℝ) (n i : ℕ)
    (hi : 0 < i) (hin : i < n - 1) :
    let ti := (i : ℝ) / ((n : ℝ) - 1)
    let j := findInterval T ti
    (ti ≤ 0 → j = 0)
    ∧ (¬ ti ≤ 0 →
        (∃ m, m + 1 < T.length ∧ T.getD m 0 < ti ∧ ti ≤ T.getD (m + 1) 0) →
        T.getD j 0 < ti ∧ ti ≤ T.getD (j + 1) 0)
    ∧ (¬ ti ≤ 0 →
        ¬(∃ m, m + 1 < T.length ∧ T.getD m 0 < ti ∧ ti ≤ T.getD (m + 1) 0) →
        j = T.length - 2)
    ∧ (computeSi knots T n).getD i 0 =
        (let kj := knots.getD j ⟨0, 0⟩
         let kjp1 := knots.getD (j + 1) ⟨0, 0⟩
         let Tj := T.getD j 0
         let Bj := (kjp1.F - kj.F) / (kjp1.S - kj.S)
         let eps := Bj * (ti - Tj)
         if |Bj| ≥ 0.001 then kj.S + kj.F * (Real.exp eps - 1) / Bj
         else kj.S + kj.F * (1 + eps / 2 + eps ^ 2 / 6 + eps ^ 3 / 24) * (ti - Tj)) := by
  intro ti j
  refine ⟨?_, ?_, ?_, ?_⟩
  · intro h0
    simp only [j, findInterval, if_pos h0]
  · intro h0 hex
    have hj : j = (findFrom ti T 0).getD (T.length - 2) := by
      simp only [j, findInterval, if_neg h0]
    cases hf : findFrom ti T 0 with
    | none =>
      obtain ⟨m, hm, h1, h2⟩ := hex
      exact absurd ⟨h1, h2⟩ (findFrom_eq_none ti T 0 hf m hm)
    | some k =>
      obtain ⟨m, rfl, hm, h1, h2⟩ := findFrom_eq_some ti T 0 k hf
      rw [hj, hf]
      simp only [Option.getD_some, Nat.zero_add]
      exact ⟨h1, h2⟩
  · intro h0 hnex
    cases hf : findFrom ti T 0 with
    | none => simp only [j, findInterval, if_neg h0, hf, Option.getD_none]
    | some k =>
      obtain ⟨m, rfl, hm, h1, h2⟩ := findFrom_eq_some ti T 0 k hf
      exact absurd ⟨m, hm, h1, h2⟩ hnex
  · rw [computeSi_getD_mid knots T n i hi hin]
    rfl

/-- Claim C4 witness: knots (0,1),(1,1) with `T = [0,1]`, `n = 3`, `i = 1`:
the target is `1/2`, the matching segment is 0, and the series branch applies. -/
theorem computeSi_formula_w :
    (0 : ℝ) < 1 / 2
    ∧ [(0 : ℝ), 1].getD (findInterval [(0 : ℝ), 1] (1 / 2)) 0 < 1 / 2
    ∧ (computeSi [⟨0, 1⟩, ⟨1, 1⟩] [(0 : ℝ), 1] 3).getD 1 0 = 1 / 2 := by
  have h := computeSi_formula [⟨0, 1⟩, ⟨1, 1⟩] [(0 : ℝ), 1] 3 1 (by omega) (by omega)
  have hcast : ((1 : ℕ) : ℝ) / (((3 : ℕ) : ℝ) - 1) = 1 / 2 := by norm_num
  simp only [hcast] at h
  have hpos : ¬ ((1 : ℝ) / 2 ≤ 0) := by norm_num
  have hseg := h.2.1 hpos ⟨0, by simp, by norm_num [List.getD], by norm_num [List.getD]⟩
  refine ⟨by norm_num, hseg.1, ?_⟩
  have hval := h.2.2.2
  rw [hval]
  norm_num [findInterval, findFrom, List.getD]

/-! ### Claim C10 -/

/-- Claim C10: for every `T` with at least 2 elements and every real `t`,
`findInterval T t` is an index `j ≤ T.length - 2`; consequently every access
`computeSi` performs — `knots[j]`, `knots[j+1]`, `T[j]` for `j = findInterval`
of any target — is in bounds whenever `knots` and `T` have equal length `≥ 2`. -/
theorem findInterval_in_bounds (T : List ℝ) (t : ℝ) (hT : 2 ≤ T.length) :
    findInterval T t ≤ T.length - 2
    ∧ findInterval T t + 1 < T.length
    ∧ ∀ knots : List Knot, knots.length = T.length →
        findInterval T t < knots.length ∧ findInterval T t + 1 < knots.length := by
  have h := findInterval_le T t hT
  exact ⟨h, by omega, fun knots hk => ⟨by omega, by omega⟩⟩

/-- Claim C10 witness: `T = [0, 1/2, 1]` and target `3/4`. -/
theorem findInterval_in_bounds_w :
    findInterval [(0 : ℝ), 1/2, 1] (3/4) ≤ 1
    ∧ findInterval [(0 : ℝ), 1/2, 1] (3/4) + 1 < 3
    ∧ findInterval [(0 : ℝ), 1/2, 1] (3/4) + 1 < 3 := by
  have h := findInterval_in_bounds [(0 : ℝ), 1/2, 1] (3/4) (by simp)
  have h3 := (h.2.2 [⟨0, 1⟩, ⟨1/2, 1⟩, ⟨1, 1⟩] (by simp)).2
  exact ⟨by simpa using h.1, by simpa using h.2.1, by simpa using h3⟩

/-! ### Claim C6: scaling invariance -/

/-- The F-doubling map of claim C6: every `F` replaced by `2*F`. -/
noncomputable def doubleF (k : Knot) : Knot :=
  ⟨k.S, 2 * k.F⟩

theorem deltaT_doubleF (k1 k2 : Knot) :
    deltaT (doubleF k1) (doubleF k2) = deltaT k1 k2 / 2 := by
  unfold deltaT doubleF
  simp only
  rw [show (2 * k2.F - 2 * k1.F) / (2 * k1.F) = (k2.F - k1.F) / k1.F from by
        rw [show 2 * k2.F - 2 * k1.F = 2 * (k2.F - k1.F) from by ring]
        exact mul_div_mul_left _ _ two_ne_zero,
      show 2 * k2.F / (2 * k1.F) = k2.F / k1.F from mul_div_mul_left _ _ two_ne_zero]
  split
  · rw [show 2 * k2.F - 2 * k1.F = (k2.F - k1.F) * 2 from by ring, ← div_div]
    ring
  · rw [show 2 * k1.F = k1.F * 2 from by ring, ← div_div]
    ring

theorem computeTjAux_doubleF (ks : List Knot) :
    ∀ t, computeTjAux (t / 2) (ks.map doubleF) = (computeTjAux t ks).map (· / 2) := by
  induction ks with
  | nil => intro t; simp [computeTjAux]
  | cons k1 tail ih =>
    cases tail with
    | nil => intro t; simp [computeTjAux]
    | cons k2 rest =>
      intro t
      simp only [List.map_cons, computeTjAux]
      rw [show t / 2 + deltaT (doubleF k1) (doubleF k2) = (t + deltaT k1 k2) / 2 from by
            rw [deltaT_doubleF]; ring]
      rw [show (doubleF k2 :: List.map doubleF rest) = (k2 :: rest).map doubleF from rfl]
      rw [ih (t + deltaT k1 k2)]

theorem computeTj_doubleF (knots : List Knot) :
    computeTj (knots.map doubleF) = (computeTj knots).map (· / 2) := by
  have h := computeTjAux_doubleF knots 0
  rw [show (0 : ℝ) / 2 = 0 from by norm_num] at h
  exact h

theorem getD_map_half (T : List ℝ) (i : ℕ) :
    (T.map (· / 2)).getD i 0 = T.getD i 0 / 2 := by
  rcases lt_or_ge i T.length with h | h
  · simp [List.getD_eq_getElem?_getD, List.getElem?_map,
      List.getElem?_eq_getElem h]
  · have h1 : (T.map (· / 2)).getD i 0 = 0 := List.getD_eq_default _ _ (by simpa using h)
    have h2 : T.getD i 0 = 0 := List.getD_eq_default _ _ h
    rw [h1, h2]
    norm_num

theorem div_half_div_half (a b : ℝ) : a / 2 / (b / 2) = a / b := by
  rcases eq_or_ne b 0 with rfl | hb
  · simp
  · field_simp

theorem rescale_doubleF (knots : List Knot) (T : List ℝ) :
    rescale (knots.map doubleF) (T.map (· / 2)) = rescale knots T := by
  unfold rescale
  simp only [List.length_map]
  rw [getD_map_half]
  refine Prod.ext ?_ ?_
  · simp only [List.map_map]
    refine List.map_congr_left fun k _ => ?_
    simp only [Function.comp_apply, doubleF, Knot.mk.injEq]
    exact ⟨trivial, by ring⟩
  · simp only [List.map_map]
    refine List.map_congr_left fun t _ => ?_
    simp only [Function.comp_apply]
    exact div_half_div_half t _

/-- Claim C6: for every valid knot list (at least 2 knots, all `F > 0`) and every
`n ≥ 2`, doubling every `F` value leaves the output unchanged:
`computeSSP(map doubleF knots, n).si = computeSSP(knots, n).si`. -/
theorem computeSSP_doubleF (knots : List Knot) (n : ℕ)
    (hk : 2 ≤ knots.length) (hF : ∀ k ∈ knots, 0 < k.F) (hn : 2 ≤ n) :
    (computeSSP (knots.map doubleF) n).map ComputedValues.si
      = (computeSSP knots n).map ComputedValues.si := by
  have h1 : ¬ knots.length < 2 := by omega
  have h1' : ¬ (knots.map doubleF).length < 2 := by
    simpa using h1
  have h2 : ¬ n < 2 := by omega
  have hany : (knots.any fun k => decide (k.F ≤ 0)) = false := by
    rw [List.any_eq_false]
    intro k hk'
    simp only [decide_eq_true_eq]
    exact fun hle => absurd (hF k hk') (by linarith)
  have hany' : ((knots.map doubleF).any fun k => decide (k.F ≤ 0)) = false := by
    rw [List.any_eq_false]
    intro k hk'
    simp only [List.mem_map] at hk'
    obtain ⟨a, ha, rfl⟩ := hk'
    simp only [doubleF, decide_eq_true_eq]
    exact fun hle => absurd (hF a ha) (by linarith)
  rw [computeSSP, computeSSP]
  simp only [if_neg h1, if_neg h1', if_neg h2, hany, hany', Bool.false_eq_true,
    ite_false]
  rw [computeTj_doubleF, rescale_doubleF]

/-- Claim C6 witness: the default pair doubled, with `n = 2`. -/
theorem computeSSP_doubleF_w :
    (computeSSP ([⟨0, 1⟩, ⟨1, 1⟩].map doubleF) 2).map ComputedValues.si
      = (computeSSP [⟨0, 1⟩, ⟨1, 1⟩] 2).map ComputedValues.si :=
  computeSSP_doubleF [⟨0, 1⟩, ⟨1, 1⟩] 2 (by simp)
    (by intro k hk
        simp only [List.mem_cons] at hk
        rcases hk with h | h | h <;> first | (subst h; norm_num) | simp at h)
    (by omega)

/-! ### Claim C5: no degenerate-scale check exists -/

/-- Claim C5 counterexample: for the duplicate knots (0,1),(0,1) the integrated
total parametric length `TN = T[last]` is 0 (non-positive), yet `computeSSP`
returns a result rather than failing: neither `rescale` nor `computeSSP`
contains any DegenerateScale check, and the divisions by `TN` proceed
regardless (in IEEE arithmetic they produce NaN; in this real-number model
division by zero yields 0). -/
theorem rescale_degenerate_cx :
    (computeTj [⟨0, 1⟩, ⟨0, 1⟩]).getD ((computeTj [⟨0, 1⟩, ⟨0, 1⟩]).length - 1) 0 = 0
    ∧ computeSSP [⟨0, 1⟩, ⟨0, 1⟩] 2 =
        .ok ⟨[0, 0], [⟨0, 0⟩, ⟨0, 0⟩], [0, 1]⟩ := by
  constructor
  · norm_num [computeTj, computeTjAux, deltaT, List.getD]
  · norm_num [computeSSP, computeTj, computeTjAux, deltaT, rescale, computeSi,
      siBody, findInterval, findFrom, List.range']

/-- Claim C5 (amended): the pipeline performs no check on `TN`: `computeSSP`
fails only for the three InvalidInput conditions, and for every other input —
including knot lists whose integrated `TN` is non-positive — it returns a
result. -/
theorem computeSSP_no_degenerate_check (knots : List Knot) (n : ℕ)
    (e : SSPError) (h : computeSSP knots n = .error e) :
    knots.length < 2 ∨ n < 2 ∨ ∃ k ∈ knots, k.F ≤ 0 := by
  by_contra hc
  push_neg at hc
  obtain ⟨h1, h2, h3⟩ := hc
  have hany : (knots.any fun k => decide (k.F ≤ 0)) = false := by
    rw [List.any_eq_false]
    intro k hk
    simp only [decide_eq_true_eq]
    exact fun hle => absurd hle (not_le.mpr (h3 k hk))
  rw [computeSSP] at h
  simp only [if_neg (show ¬ knots.length < 2 by omega), if_neg (show ¬ n < 2 by omega),
    hany, Bool.false_eq_true, ite_false] at h
  exact Except.noConfusion h

/-- Claim C5 amended-claim witness: the empty knot list with `n = 2`. -/
theorem computeSSP_no_degenerate_check_w :
    ([] : List Knot).length < 2 ∨ 2 < 2 ∨ ∃ k ∈ ([] : List Knot), k.F ≤ 0 :=
  computeSSP_no_degenerate_check [] 2 .tooFewKnots (by simp [computeSSP])

/-! ### Claim C7: branch agreement at the 0.001 threshold -/

/-- The well-conditioned (logarithmic) branch of `computeTj` (ssp.ts line 50). -/
noncomputable def tjLogForm (kj kjp1 : Knot) : ℝ :=
  ((kjp1.S - kj.S) / (kjp1.F - kj.F)) * Real.log (kjp1.F / kj.F)

/-- The asymptotic-expansion branch of `computeTj` (ssp.ts line 54). -/
noncomputable def tjAsymForm (kj kjp1 : Knot) : ℝ :=
  let eps := (kjp1.F - kj.F) / kj.F
  ((kjp1.S - kj.S) / kj.F) * (1 + eps / 6) / (1 + 2 * eps / 3)

/-- The well-conditioned (exponential) branch of the inverter (ssp.ts line 141). -/
noncomputable def siExpForm (Sj Fj Bj ti Tj : ℝ) : ℝ :=
  Sj + Fj * (Real.exp (Bj * (ti - Tj)) - 1) / Bj

/-- The truncated-series branch of the inverter (ssp.ts line 146). -/
noncomputable def siSeriesForm (Sj Fj Bj ti Tj : ℝ) : ℝ :=
  let eps := Bj * (ti - Tj)
  Sj + Fj * (1 + eps / 2 + eps ^ 2 / 6 + eps ^ 3 / 24) * (ti - Tj)

theorem deltaT_eq_branches (kj kjp1 : Knot) :
    deltaT kj kjp1 =
      if |(kjp1.F - kj.F) / kj.F| ≥ 0.001 then tjLogForm kj kjp1
      else tjAsymForm kj kjp1 :=
  rfl

theorem siBody_eq_branches (knots : List Knot) (T : List ℝ) (ti : ℝ) :
    siBody knots T ti =
      (let j := findInterval T ti
       let kj := knots.getD j ⟨0, 0⟩
       let kjp1 := knots.getD (j + 1) ⟨0, 0⟩
       let Bj := (kjp1.F - kj.F) / (kjp1.S - kj.S)
       if |Bj| ≥ 0.001 then siExpForm kj.S kj.F Bj ti (T.getD j 0)
       else siSeriesForm kj.S kj.F Bj ti (T.getD j 0)) :=
  rfl

/-- Rational two-sided bound on `ln(1001/1000)` from the degree-4 Taylor
polynomial of `ln(1-x)` at `x = -1/1000`. -/
theorem log_ratio_1001_bounds :
    (0.0009995003330823 : ℝ) ≤ Real.log (1001/1000)
    ∧ Real.log (1001/1000) ≤ (0.0009995003330844 : ℝ) := by
  have h := Real.abs_log_sub_add_sum_range_le
    (x := -(1/1000)) (by rw [abs_neg, abs_of_nonneg] <;> norm_num) 4
  rw [show (1 : ℝ) - -(1/1000) = 1001/1000 by norm_num] at h
  rw [show (∑ i ∈ Finset.range 4, (-(1/1000) : ℝ) ^ (i + 1) / (i + 1)) =
      -(1/1000) + 1/2000000 - 1/3000000000 + 1/4000000000000 by
        simp [Finset.sum_range_succ]
        norm_num] at h
  rw [show |(-(1/1000) : ℝ)| = 1/1000 by rw [abs_neg, abs_of_nonneg] <;> norm_num] at h
  rw [abs_le] at h
  obtain ⟨h1, h2⟩ := h
  norm_num at h1 h2
  constructor <;> linarith

/-- Rational two-sided bound on `ln(999/1000)` from the degree-4 Taylor
polynomial of `ln(1-x)` at `x = 1/1000`. -/
theorem log_ratio_999_bounds :
    (-0.0010005003335844 : ℝ) ≤ Real.log (999/1000)
    ∧ Real.log (999/1000) ≤ (-0.0010005003335823 : ℝ) := by
  have h := Real.abs_log_sub_add_sum_range_le
    (x := (1/1000 : ℝ)) (by rw [abs_of_nonneg] <;> norm_num) 4
  rw [show (1 : ℝ) - 1/1000 = 999/1000 by norm_num] at h
  rw [show (∑ i ∈ Finset.range 4, ((1/1000) : ℝ) ^ (i + 1) / (i + 1)) =
      1/1000 + 1/2000000 + 1/3000000000 + 1/4000000000000 by
        simp [Finset.sum_range_succ]
        norm_num] at h
  rw [show |((1/1000) : ℝ)| = 1/1000 by rw [abs_of_nonneg] <;> norm_num] at h
  rw [abs_le] at h
  obtain ⟨h1, h2⟩ := h
  norm_num at h1 h2
  constructor <;> linarith

/-- Lower bound on the degree-4 Taylor remainder of `exp` at `0.001`, from the
degree-6 partial sum: the omitted `eps^5/120` term dominates. -/
theorem exp_001_lower :
    (2e-18 : ℝ) < Real.exp 0.001
      - (1 + 0.001 + 0.001 ^ 2 / 2 + 0.001 ^ 3 / 6 + 0.001 ^ 4 / 24) := by
  have hexp := Real.exp_bound (x := (0.001 : ℝ))
    (by rw [abs_of_nonneg] <;> norm_num) (n := 6) (by norm_num)
  have hsum : (∑ m ∈ Finset.range 6, (0.001 : ℝ) ^ m / m.factorial)
      = 1 + 0.001 + 0.001 ^ 2 / 2 + 0.001 ^ 3 / 6 + 0.001 ^ 4 / 24
        + 0.001 ^ 5 / 120 := by
    simp [Finset.sum_range_succ, Nat.factorial]
  rw [hsum] at hexp
  have hb : |(0.001 : ℝ)| ^ 6 * ((6 : ℕ).succ / ((6 : ℕ).factorial * 6)) ≤ 2e-21 := by
    rw [abs_of_nonneg (by norm_num)]
    norm_num [Nat.factorial]
  have h1 := (abs_le.mp hexp).1
  nlinarith

/-- Claim C7 counterexample, both halves of the claim. Integrator: the segment
from (S,F) = (0, 1/100) to (1, 1001/100000) has dS = 1 ∈ (0,1], F_j = 1/100 =
0.01, and eps exactly 0.001, yet the logarithmic and asymptotic forms differ by
more than 1e-9 (the true gap is about 2.8e-9 = (dS/F_j)·eps³/36). Inverter, as
stated without bounds on F_j or t_i - T_j: with Bj = 0.001 exactly, F_j = 10^6,
S_j = 0, t_i - T_j = 1 (so eps = Bj·(t_i - T_j) = 0.001), the exponential and
truncated-series forms differ by more than 1e-9 (the gap is
F_j·(exp(eps) - S₄(eps))/Bj ≈ F_j·eps⁴/120·(t_i - T_j) ≈ 8.3e-9). -/
theorem branch_agreement_cx :
    ((⟨1, 1001/100000⟩ : Knot).S - (⟨0, 1/100⟩ : Knot).S = 1
      ∧ (⟨0, 1/100⟩ : Knot).F = 1/100
      ∧ |((⟨1, 1001/100000⟩ : Knot).F - (⟨0, 1/100⟩ : Knot).F) / (⟨0, 1/100⟩ : Knot).F|
          = 0.001)
    ∧ 1e-9 < |tjLogForm ⟨0, 1/100⟩ ⟨1, 1001/100000⟩
        - tjAsymForm ⟨0, 1/100⟩ ⟨1, 1001/100000⟩|
    ∧ (|(0.001 : ℝ)| = 0.001
        ∧ 1e-9 < |siExpForm 0 1000000 0.001 1 0 - siSeriesForm 0 1000000 0.001 1 0|) := by
  refine ⟨⟨by norm_num, rfl, ?_⟩, ?_, ⟨by rw [abs_of_nonneg] <;> norm_num, ?_⟩⟩
  · rw [show ((⟨1, 1001/100000⟩ : Knot).F - (⟨0, 1/100⟩ : Knot).F) / (⟨0, 1/100⟩ : Knot).F
        = 1/1000 by norm_num]
    rw [abs_of_nonneg] <;> norm_num
  · have hlog : tjLogForm ⟨0, 1/100⟩ ⟨1, 1001/100000⟩ = 100000 * Real.log (1001/1000) := by
      rw [tjLogForm]
      norm_num
    have hasym : tjAsymForm ⟨0, 1/100⟩ ⟨1, 1001/100000⟩ = 150025/1501 := by
      rw [tjAsymForm]
      norm_num
    rw [hlog, hasym]
    have hub := log_ratio_1001_bounds.2
    have h1 : (1e-9 : ℝ) < 150025/1501 - 100000 * Real.log (1001/1000) := by nlinarith
    calc (1e-9 : ℝ) < 150025/1501 - 100000 * Real.log (1001/1000) := h1
      _ ≤ |100000 * Real.log (1001/1000) - 150025/1501| := by
          rw [abs_sub_comm]
          exact le_abs_self _
  · have hdiff2 : siExpForm 0 1000000 0.001 1 0 - siSeriesForm 0 1000000 0.001 1 0
        = 1000000000 * (Real.exp 0.001
            - (1 + 0.001 + 0.001 ^ 2 / 2 + 0.001 ^ 3 / 6 + 0.001 ^ 4 / 24)) := by
      simp only [siExpForm, siSeriesForm]
      rw [show (0.001 : ℝ) * ((1 : ℝ) - 0) = 0.001 by norm_num]
      field_simp
      ring
    have hgt : (1e-9 : ℝ)
        < siExpForm 0 1000000 0.001 1 0 - siSeriesForm 0 1000000 0.001 1 0 := by
      rw [hdiff2]
      nlinarith [exp_001_lower]
    exact lt_of_lt_of_le hgt (le_abs_self _)

theorem core_ratio_pos :
    |1000 * Real.log (1001/1000) - 6001/6004| ≤ (4e-11 : ℝ) := by
  have h1 := log_ratio_1001_bounds.1
  have h2 := log_ratio_1001_bounds.2
  rw [abs_le]
  constructor <;> nlinarith

theorem core_ratio_neg :
    |1000 * (-(Real.log (999/1000))) - 5999/5996| ≤ (4e-11 : ℝ) := by
  have h1 := log_ratio_999_bounds.1
  have h2 := log_ratio_999_bounds.2
  rw [abs_le]
  constructor <;> nlinarith

/-- Claim C7 (amended): at the branch threshold the two formulas of `computeTj`
agree to within 1e-8 (not 1e-9: the worst case `dS = 1`, `F_j = 0.01` gives a
gap of about 2.8e-9), and the two formulas of the inverter agree to within 1e-9
when additionally `0 ≤ t_i - T_j ≤ 1` and `0.01 ≤ F_j ≤ 100`. -/
theorem branch_agreement_amended :
    (∀ kj kjp1 : Knot, 0 < kjp1.S - kj.S → kjp1.S - kj.S ≤ 1 → 1/100 ≤ kj.F →
        |(kjp1.F - kj.F) / kj.F| = 0.001 →
        |tjLogForm kj kjp1 - tjAsymForm kj kjp1| ≤ 1e-8)
    ∧ (∀ Sj Fj Bj ti Tj : ℝ, |Bj| = 0.001 → 0 ≤ ti - Tj → ti - Tj ≤ 1 →
        1/100 ≤ Fj → Fj ≤ 100 →
        |siExpForm Sj Fj Bj ti Tj - siSeriesForm Sj Fj Bj ti Tj| ≤ 1e-9) := by
  constructor
  · intro kj kjp1 hdS0 hdS1 hFlo heps
    have hFpos : (0 : ℝ) < kj.F := lt_of_lt_of_le (by norm_num) hFlo
    have hFne : kj.F ≠ 0 := ne_of_gt hFpos
    have hdsf : |(kjp1.S - kj.S) / kj.F| ≤ 100 := by
      rw [abs_of_nonneg (div_nonneg (le_of_lt hdS0) (le_of_lt hFpos))]
      rw [div_le_iff hFpos]
      nlinarith
    rcases (abs_eq (by norm_num : (0.001 : ℝ) ≥ 0)).mp heps with h | h
    · have hdF : kjp1.F - kj.F = kj.F / 1000 := by
        have h' := (div_eq_iff hFne).mp h
        rw [h']
        ring_nf
      have hratio : kjp1.F / kj.F = 1001/1000 := by
        rw [show kjp1.F = kj.F + kj.F / 1000 by linarith [hdF]]
        field_simp
        ring
      have hlogf : tjLogForm kj kjp1
          = (kjp1.S - kj.S) / kj.F * (1000 * Real.log (1001/1000)) := by
        rw [tjLogForm, hdF, hratio]
        field_simp
        ring
      have hasymf : tjAsymForm kj kjp1 = (kjp1.S - kj.S) / kj.F * (6001/6004) := by
        simp only [tjAsymForm]
        rw [h]
        rw [show (1 : ℝ) + 0.001 / 6 = 6001/6000 by norm_num,
            show (1 : ℝ) + 2 * 0.001 / 3 = 1501/1500 by norm_num]
        rw [div_eq_iff (by norm_num : (1501/1500 : ℝ) ≠ 0)]
        ring
      rw [hlogf, hasymf, ← mul_sub, abs_mul]
      calc |(kjp1.S - kj.S) / kj.F| * |1000 * Real.log (1001/1000) - 6001/6004|
          ≤ 100 * 4e-11 := mul_le_mul hdsf core_ratio_pos (abs_nonneg _) (by norm_num)
        _ ≤ 1e-8 := by norm_num
    · have hdF : kjp1.F - kj.F = -(kj.F / 1000) := by
        have h' := (div_eq_iff hFne).mp h
        rw [h']
        ring_nf
      have hratio : kjp1.F / kj.F = 999/1000 := by
        rw [show kjp1.F = kj.F - kj.F / 1000 by linarith [hdF]]
        field_simp
        ring
      have hlogf : tjLogForm kj kjp1
          = (kjp1.S - kj.S) / kj.F * (1000 * (-(Real.log (999/1000)))) := by
        rw [tjLogForm, hdF, hratio]
        rw [div_neg, div_div_eq_mul_div]
        ring
      have hasymf : tjAsymForm kj kjp1 = (kjp1.S - kj.S) / kj.F * (5999/5996) := by
        simp only [tjAsymForm]
        rw [h]
        rw [show (1 : ℝ) + -0.001 / 6 = 5999/6000 by norm_num,
            show (1 : ℝ) + 2 * -0.001 / 3 = 1499/1500 by norm_num]
        rw [div_eq_iff (by norm_num : (1499/1500 : ℝ) ≠ 0)]
        ring
      rw [hlogf, hasymf, ← mul_sub, abs_mul]
      calc |(kjp1.S - kj.S) / kj.F| * |1000 * (-(Real.log (999/1000))) - 5999/5996|
          ≤ 100 * 4e-11 := mul_le_mul hdsf core_ratio_neg (abs_nonneg _) (by norm_num)
        _ ≤ 1e-8 := by norm_num
  · intro Sj Fj Bj ti Tj hB hdt0 hdt1 hF1 hF2
    have hBne : Bj ≠ 0 := by
      intro h0
      rw [h0, abs_zero] at hB
      norm_num at hB
    have habs : |Bj * (ti - Tj)| ≤ 1/1000 := by
      rw [abs_mul, hB, abs_of_nonneg hdt0]
      nlinarith
    have hexp := Real.exp_bound (x := Bj * (ti - Tj))
      (le_trans habs (by norm_num)) (n := 5) (by norm_num)
    have hsum : (∑ m ∈ Finset.range 5, (Bj * (ti - Tj)) ^ m / m.factorial)
        = 1 + Bj * (ti - Tj) + (Bj * (ti - Tj)) ^ 2 / 2
          + (Bj * (ti - Tj)) ^ 3 / 6 + (Bj * (ti - Tj)) ^ 4 / 24 := by
      simp [Finset.sum_range_succ, Nat.factorial]
    rw [hsum] at hexp
    have hdiff : siExpForm Sj Fj Bj ti Tj - siSeriesForm Sj Fj Bj ti Tj
        = Fj * (Real.exp (Bj * (ti - Tj))
            - (1 + Bj * (ti - Tj) + (Bj * (ti - Tj)) ^ 2 / 2
              + (Bj * (ti - Tj)) ^ 3 / 6 + (Bj * (ti - Tj)) ^ 4 / 24)) / Bj := by
      simp only [siExpForm, siSeriesForm]
      field_simp
      ring
    rw [hdiff, abs_div, abs_mul, hB]
    have hpow : |Bj * (ti - Tj)| ^ 5 ≤ (1/1000 : ℝ) ^ 5 :=
      pow_le_pow_left (abs_nonneg _) habs 5
    have hFj : |Fj| ≤ 100 := by
      rw [abs_of_nonneg (by linarith : (0 : ℝ) ≤ Fj)]
      exact hF2
    have hnum : |Fj| * |Real.exp (Bj * (ti - Tj))
        - (1 + Bj * (ti - Tj) + (Bj * (ti - Tj)) ^ 2 / 2
          + (Bj * (ti - Tj)) ^ 3 / 6 + (Bj * (ti - Tj)) ^ 4 / 24)|
        ≤ 100 * ((1/1000 : ℝ) ^ 5 * (6 / ((120 : ℕ) * 5))) := by
      apply mul_le_mul hFj _ (abs_nonneg _) (by norm_num)
      calc |Real.exp (Bj * (ti - Tj)) - _|
          ≤ |Bj * (ti - Tj)| ^ 5 * ((5 : ℕ).succ / ((5 : ℕ).factorial * 5)) := hexp
        _ ≤ (1/1000 : ℝ) ^ 5 * (6 / ((120 : ℕ) * 5)) := by
            apply mul_le_mul hpow _ (by positivity) (by positivity)
            norm_num [Nat.factorial]
    rw [div_le_iff (by norm_num : (0 : ℝ) < 0.001)]
    calc |Fj| * |Real.exp (Bj * (ti - Tj)) - _|
        ≤ 100 * ((1/1000 : ℝ) ^ 5 * (6 / ((120 : ℕ) * 5))) := hnum
      _ ≤ 1e-9 * 0.001 := by norm_num

/-- Claim C7 amended-claim witness: the counterexample segment itself for the
integrator half (within 1e-8), and `Bj = 0.001` with `Fj = 1`, `ti - Tj = 1/2`
for the inverter half. -/
theorem branch_agreement_amended_w :
    |tjLogForm ⟨0, 1/100⟩ ⟨1, 1001/100000⟩ - tjAsymForm ⟨0, 1/100⟩ ⟨1, 1001/100000⟩| ≤ 1e-8
    ∧ |siExpForm 0 1 0.001 (1/2) 0 - siSeriesForm 0 1 0.001 (1/2) 0| ≤ 1e-9 :=
  ⟨branch_agreement_amended.1 ⟨0, 1/100⟩ ⟨1, 1001/100000⟩ (by norm_num) (by norm_num)
      (by norm_num)
      (by rw [show ((⟨1, 1001/100000⟩ : Knot).F - (⟨0, 1/100⟩ : Knot).F)
              / (⟨0, 1/100⟩ : Knot).F = 1/1000 by norm_num]
          rw [abs_of_nonneg] <;> norm_num),
   branch_agreement_amended.2 0 1 0.001 (1/2) 0
      (by rw [abs_of_nonneg] <;> norm_num) (by norm_num) (by norm_num)
      (by norm_num) (by norm_num)⟩

/-! ### `sanitizeKnots` machinery (claims C8 and C9) -/

instance : IsTotal Knot (fun a b : Knot => a.S ≤ b.S) :=
  ⟨fun a b => le_total a.S b.S⟩

instance : IsTrans Knot (fun a b : Knot => a.S ≤ b.S) :=
  ⟨fun _ _ _ hab hbc => le_trans hab hbc⟩

theorem setS_length (l : List Knot) (i : ℕ) (v : ℝ) :
    (setS l i v).length = l.length := by
  simp [setS]

theorem getD_setS_ne (l : List Knot) (i j : ℕ) (v : ℝ) (d : Knot) (h : i ≠ j) :
    (setS l i v).getD j d = l.getD j d := by
  simp [setS, List.getD_eq_getElem?_getD, List.getElem?_set_ne h]

theorem getD_setS_self (l : List Knot) (i : ℕ) (v : ℝ) (d : Knot)
    (h : i < l.length) :
    (setS l i v).getD i d = ⟨v, (l.getD i ⟨0, 0⟩).F⟩ := by
  simp [setS, List.getD_eq_getElem?_getD, List.getElem?_set_self h]

theorem getD_map_clampF (l : List Knot) (i : ℕ) (d : Knot) (h : i < l.length) :
    (l.map clampF).getD i d = clampF (l.getD i d) := by
  rw [List.getD_eq_getElem _ _ (by simpa using h), List.getD_eq_getElem _ _ h,
    List.getElem_map]

theorem sortKnots_sorted (knots : List Knot) :
    List.Sorted (fun a b : Knot => a.S ≤ b.S) (sortKnots knots) :=
  List.sorted_insertionSort _ knots

theorem sortKnots_perm (knots : List Knot) : List.Perm (sortKnots knots) knots :=
  List.perm_insertionSort _ knots

theorem sortKnots_length (knots : List Knot) :
    (sortKnots knots).length = knots.length :=
  (sortKnots_perm knots).length_eq

theorem sorted_getD_adj {l : List Knot}
    (h : List.Sorted (fun a b : Knot => a.S ≤ b.S) l) {a : ℕ} (d : Knot)
    (ha : a + 1 < l.length) :
    (l.getD a d).S ≤ (l.getD (a + 1) d).S := by
  have hlt : (⟨a, by omega⟩ : Fin l.length) < ⟨a + 1, ha⟩ := by
    simp [Fin.lt_def]
  have h2 := h.rel_get_of_lt hlt
  rw [List.getD_eq_getElem _ _ (show a < l.length by omega),
    List.getD_eq_getElem _ _ ha]
  simpa [List.get_eq_getElem] using h2

theorem sortKnots_getD_mem (knots : List Knot) {i : ℕ} (d : Knot)
    (h : i < (sortKnots knots).length) :
    (sortKnots knots).getD i d ∈ knots := by
  rw [List.getD_eq_getElem _ _ h]
  exact (sortKnots_perm knots).mem_iff.mp (List.getElem_mem h)

/-- Claim C8 (amended): `sanitizeKnots` returns the canonical default pair when
fewer than 2 knots are supplied; otherwise the result has the input's length,
its first knot has `S = 0`, its last knot has `S = 1`, every `F` is at least
the floor `1/100` (`F ≤ 0` is floored, never rejected), and the knots are in
ascending `S` order except possibly at the two overwritten endpoints: the
interior is always ascending, and when every input `S` already lies in `[0,1]`
the whole result is ascending. (Fully sorted output fails in general: endpoint
overwriting can place `0` before a negative interior `S`; see the
counterexample.) -/
theorem sanitizeKnots_spec (knots : List Knot) :
    (knots.length < 2 → sanitizeKnots knots = createDefaultKnots)
    ∧ (2 ≤ knots.length →
        (sanitizeKnots knots).length = knots.length
        ∧ ((sanitizeKnots knots).getD 0 ⟨0, 0⟩).S = 0
        ∧ ((sanitizeKnots knots).getD (knots.length - 1) ⟨0, 0⟩).S = 1
        ∧ (∀ k ∈ sanitizeKnots knots, 1/100 ≤ k.F)
        ∧ (∀ i, 1 ≤ i → i + 2 < knots.length →
            ((sanitizeKnots knots).getD i ⟨0, 0⟩).S
              ≤ ((sanitizeKnots knots).getD (i + 1) ⟨0, 0⟩).S)
        ∧ ((∀ k ∈ knots, 0 ≤ k.S ∧ k.S ≤ 1) →
            ∀ i, i + 1 < knots.length →
              ((sanitizeKnots knots).getD i ⟨0, 0⟩).S
                ≤ ((sanitizeKnots knots).getD (i + 1) ⟨0, 0⟩).S)) := by
  constructor
  · intro h
    rw [sanitizeKnots, if_pos h]
  · intro hL
    have hnot : ¬ knots.length < 2 := by omega
    have hslen : (sortKnots knots).length = knots.length := sortKnots_length knots
    have hsan : sanitizeKnots knots
        = (setS (setS (sortKnots knots) 0 0) ((sortKnots knots).length - 1) 1).map
            clampF := by
      rw [sanitizeKnots, if_neg hnot]
    have hsorted := sortKnots_sorted knots
    have hFlen : (setS (setS (sortKnots knots) 0 0) ((sortKnots knots).length - 1) 1).length
        = knots.length := by
      rw [setS_length, setS_length, hslen]
    have hmidS : ∀ i, i ≠ 0 → i ≠ knots.length - 1 → i < knots.length →
        ((sanitizeKnots knots).getD i ⟨0, 0⟩).S
          = ((sortKnots knots).getD i ⟨0, 0⟩).S := by
      intro i hi0 hiN hilt
      rw [hsan, getD_map_clampF _ _ _ (by rw [hFlen]; exact hilt)]
      rw [getD_setS_ne _ _ _ _ _ (by rw [hslen]; exact fun hc => hiN hc.symm)]
      rw [getD_setS_ne _ _ _ _ _ (fun hc => hi0 hc.symm)]
      simp [clampF]
    refine ⟨?_, ?_, ?_, ?_, ?_, ?_⟩
    · rw [hsan, List.length_map, hFlen]
    · rw [hsan, getD_map_clampF _ _ _ (by rw [hFlen]; omega)]
      rw [getD_setS_ne _ _ _ _ _ (by rw [hslen]; omega)]
      rw [getD_setS_self _ _ _ _ (by rw [hslen]; omega)]
      simp [clampF]
    · rw [hsan, getD_map_clampF _ _ _ (by rw [hFlen]; omega)]
      rw [hslen, getD_setS_self _ _ _ _ (by rw [setS_length, hslen]; omega)]
      simp [clampF]
    · intro k hk
      rw [hsan] at hk
      simp only [List.mem_map] at hk
      obtain ⟨a, _, rfl⟩ := hk
      have : (1/100 : ℝ) = 0.01 := by norm_num
      rw [this]
      exact le_max_left _ _
    · intro i h1 h2
      rw [hmidS i (by omega) (by omega) (by omega),
        hmidS (i + 1) (by omega) (by omega) (by omega)]
      exact sorted_getD_adj hsorted _ (by omega)
    · intro hin i hi
      have hmem : ∀ j, j < knots.length →
          0 ≤ ((sortKnots knots).getD j ⟨0, 0⟩).S
          ∧ ((sortKnots knots).getD j ⟨0, 0⟩).S ≤ 1 := by
        intro j hj
        exact hin _ (sortKnots_getD_mem knots _ (by omega))
      have hS0 : ((sanitizeKnots knots).getD 0 ⟨0, 0⟩).S = 0 := by
        rw [hsan, getD_map_clampF _ _ _ (by rw [hFlen]; omega)]
        rw [getD_setS_ne _ _ _ _ _ (by rw [hslen]; omega)]
        rw [getD_setS_self _ _ _ _ (by rw [hslen]; omega)]
        simp [clampF]
      have hSN : ((sanitizeKnots knots).getD (knots.length - 1) ⟨0, 0⟩).S = 1 := by
        rw [hsan, getD_map_clampF _ _ _ (by rw [hFlen]; omega)]
        rw [hslen, getD_setS_self _ _ _ _ (by rw [setS_length, hslen]; omega)]
        simp [clampF]
      by_cases hi0 : i = 0
      · subst hi0
        rw [hS0]
        by_cases h1N : 1 = knots.length - 1
        · rw [show (0 : ℕ) + 1 = 1 from rfl, h1N, hSN]
          norm_num
        · rw [show (0 : ℕ) + 1 = 1 from rfl,
            hmidS 1 (by omega) (fun hc => h1N hc) (by omega)]
          exact (hmem 1 (by omega)).1
      · by_cases hiN : i + 1 = knots.length - 1
        · rw [hiN, hSN]
          rw [hmidS i (by omega) (by omega) (by omega)]
          exact (hmem i (by omega)).2
        · rw [hmidS i (by omega) (by omega) (by omega),
            hmidS (i + 1) (by omega) (by omega) (by omega)]
          exact sorted_getD_adj hsorted _ (by omega)

/-- Claim C8 amended-claim witness: the unsorted pair (1/2, 2), (1/4, 1). -/
theorem sanitizeKnots_spec_w :
    ((sanitizeKnots [⟨1/2, 2⟩, ⟨1/4, 1⟩]).getD 0 ⟨0, 0⟩).S = 0
    ∧ ((sanitizeKnots [⟨1/2, 2⟩, ⟨1/4, 1⟩]).getD 1 ⟨0, 0⟩).S = 1
    ∧ (sanitizeKnots [⟨1/2, 2⟩, ⟨1/4, 1⟩]).length = 2 := by
  have h := (sanitizeKnots_spec [⟨1/2, 2⟩, ⟨1/4, 1⟩]).2 (by simp)
  exact ⟨h.2.1, h.2.2.1, h.1⟩

/-- Claim C8 counterexample: for the ascending input with `S` values `-5, -3, 1/2`
the sort is the identity, but forcing the endpoints rewrites `S` to
`0, -3, 1`: the result is NOT sorted ascending by `S` (its first entry `0`
exceeds the second entry `-3`). -/
theorem sanitizeKnots_sorted_cx :
    sanitizeKnots [⟨-5, 1⟩, ⟨-3, 1⟩, ⟨1/2, 1⟩] = [⟨0, 1⟩, ⟨-3, 1⟩, ⟨1, 1⟩]
    ∧ ¬ List.Sorted (fun a b : Knot => a.S ≤ b.S) [⟨0, 1⟩, ⟨-3, 1⟩, ⟨1, 1⟩] := by
  constructor
  · norm_num [sanitizeKnots, sortKnots, setS, clampF, createDefaultKnots,
      List.insertionSort, List.orderedInsert, List.getD, List.set]
  · intro h
    have h01 := (List.sorted_cons.mp h).1 ⟨-3, 1⟩ (by simp)
    norm_num at h01

/-! ### Claim C9: `sanitizeKnots` mutates the caller's knots -/

/-- Claim C9: evaluation at the failing input. The spec says `sanitizeKnots` is
a pure function with no side effects, but the code's `[...knots]` copies only
the array, not the knot objects, so `sorted[0].S = 0` and `sorted[last].S = 1`
overwrite the `S` fields of the caller's own extremal knots. At the input
`[(S=3/10, F=1), (S=7/10, F=1)]` the caller's objects afterwards hold
`[(0, 1), (1, 1)]`, not their original values. -/
theorem sanitizeKnots_mutates :
    sanitizeKnotsPost [⟨3/10, 1⟩, ⟨7/10, 1⟩] = [⟨0, 1⟩, ⟨1, 1⟩]
    ∧ sanitizeKnotsPost [⟨3/10, 1⟩, ⟨7/10, 1⟩] ≠ [⟨3/10, 1⟩, ⟨7/10, 1⟩] := by
  have heval : sanitizeKnotsPost [⟨3/10, 1⟩, ⟨7/10, 1⟩] = [⟨0, 1⟩, ⟨1, 1⟩] := by
    norm_num [sanitizeKnotsPost, setS, List.insertionSort, List.orderedInsert,
      List.enum, List.enumFrom, List.getD, List.set]
  refine ⟨heval, ?_⟩
  rw [heval]
  simp only [ne_eq, List.cons.injEq, Knot.mk.injEq]
  norm_num

end SSP
